import Mathlib

/-!
Verification development for the ESPHomeDesigner repository.

The repository contains a browser-based dashboard designer hosted inside a
home-automation platform.  Its core is a Layout ⇄ Snippet codec
(`generate_snippet` and `yaml_to_layout`), invoked by HTTP route handlers in
`custom_components/reterminal_dashboard/http_api.py`, together with an
entity-listing endpoint and a simulator process registry in
`custom_components/esphome_designer/api/simulator.py`.

Texts are modelled as lists of characters, HTTP handlers as pure functions of
their inputs (request body, parser, storage transform), and the codec — whose
implementation files are not part of this source slice — is modelled from the
specification's description of its format and failure taxonomy.
-/

namespace ESPHomeDesigner

/-- Characters of a text fragment; strings are modelled as lists of characters. -/
abbrev Str := List Char

/-! ## Layout model

Modelled from the spec: the Device / Page / Widget data model of §3
(`models.py` is not in this source slice).  A widget has an id, a type
(`label` or `sensor`), non-negative position, positive size, an optional
caption (empty list = absent) and an entity identifier (meaningful for
sensors, possibly empty). -/

inductive WType where
  | label
  | sensor
deriving DecidableEq

structure Widget where
  id : Str
  type : WType
  x : Nat
  y : Nat
  width : Nat
  height : Nat
  text : Str
  entity_id : Str
deriving DecidableEq

structure Page where
  id : Str
  name : Str
  widgets : List Widget
deriving DecidableEq

structure Device where
  name : Str
  pages : List Page
deriving DecidableEq

/-- Structural validity of a Device, from the invariants of spec §3:
at least one page, page ids unique within the device, widget ids unique
within each page, sizes strictly positive. -/
def StructValid (d : Device) : Prop :=
  d.pages ≠ [] ∧
  (d.pages.map Page.id).Nodup ∧
  ∀ p ∈ d.pages,
    (p.widgets.map Widget.id).Nodup ∧
    ∀ w ∈ p.widgets, 0 < w.width ∧ 0 < w.height

instance (d : Device) : Decidable (StructValid d) := by
  unfold StructValid
  infer_instance

/-! ## Escaping

Modelled from the spec (§4.1): free text is escaped so that it cannot
collide with the structural-marker syntax (the field separator `|`), the
line structure (newline) or the surrounding format's quoting (`"`); the
Generator owns the escaping rule and the Parser the matching unescaping
rule. -/

def escChar (c : Char) : Str :=
  if c = '\\' then ['\\', 'b']
  else if c = '|' then ['\\', 'p']
  else if c = '\n' then ['\\', 'n']
  else if c = '"' then ['\\', 'q']
  else [c]

def escapeL : Str → Str
  | [] => []
  | c :: cs => escChar c ++ escapeL cs

def unescChar (d : Char) : Char :=
  if d = 'b' then '\\'
  else if d = 'p' then '|'
  else if d = 'n' then '\n'
  else if d = 'q' then '"'
  else d

def unescapeL : Str → Str
  | [] => []
  | [c] => if c = '\\' then [] else [c]
  | c :: d :: cs =>
    if c = '\\' then unescChar d :: unescapeL cs
    else c :: unescapeL (d :: cs)

theorem unescapeL_cons_of_ne (c : Char) (h : c ≠ '\\') (rest : Str) :
    unescapeL (c :: rest) = c :: unescapeL rest := by
  cases rest <;> simp [unescapeL, h]

theorem unescapeL_escapeL (s : Str) : unescapeL (escapeL s) = s := by
  induction s with
  | nil => rfl
  | cons c cs ih =>
    show unescapeL (escChar c ++ escapeL cs) = c :: cs
    unfold escChar
    split_ifs with h1 h2 h3 h4
    · subst h1; simp [unescapeL, unescChar, ih]
    · subst h2; simp [unescapeL, unescChar, ih]
    · subst h3; simp [unescapeL, unescChar, ih]
    · subst h4; simp [unescapeL, unescChar, ih]
    · rw [List.singleton_append, unescapeL_cons_of_ne c h1, ih]

/-- Escaped text never contains the field separator, a newline or a quote. -/
theorem not_mem_escapeL (x : Char) (hx : x = '|' ∨ x = '\n' ∨ x = '"') (s : Str) :
    x ∉ escapeL s := by
  induction s with
  | nil => simp [escapeL]
  | cons c cs ih =>
    show x ∉ escChar c ++ escapeL cs
    rw [List.mem_append]
    rintro (hmem | hmem)
    · unfold escChar at hmem
      split_ifs at hmem with h1 h2 h3 h4
      all_goals rcases hx with rfl | rfl | rfl <;> simp_all
      all_goals exact absurd hmem.symm (by assumption)
    · exact ih hmem

/-! ## Decimal number codec

Modelled from the spec (§4.1): geometry attributes are carried inside the
structural marker in a recoverable form; decimal digit strings here. -/

def digitVal (c : Char) : Nat := c.toNat - 48

/-- Little-endian decimal digits of `n`; `fuel` bounds the recursion and any
`fuel ≥ n` is enough. -/
def ntdAux : Nat → Nat → Str
  | 0, _ => []
  | fuel + 1, n => if n = 0 then [] else Nat.digitChar (n % 10) :: ntdAux fuel (n / 10)

def natToChars (n : Nat) : Str :=
  if n = 0 then ['0'] else (ntdAux n n).reverse

def charsToNat (s : Str) : Nat := s.foldl (fun a c => 10 * a + digitVal c) 0

/-- Value of a little-endian digit-character list. -/
def valLE : Str → Nat
  | [] => 0
  | c :: cs => digitVal c + 10 * valLE cs

theorem digitVal_digitChar : ∀ d, d < 10 → digitVal (Nat.digitChar d) = d := by decide

theorem digitChar_isDigit : ∀ d, d < 10 → (Nat.digitChar d).isDigit = true := by decide

theorem charsToNat_append (xs : Str) (c : Char) :
    charsToNat (xs ++ [c]) = 10 * charsToNat xs + digitVal c := by
  simp [charsToNat, List.foldl_append]

theorem charsToNat_reverse (l : Str) : charsToNat l.reverse = valLE l := by
  induction l with
  | nil => rfl
  | cons c cs ih =>
    rw [List.reverse_cons, charsToNat_append, ih, valLE]
    ring

theorem valLE_ntdAux : ∀ fuel n, n ≤ fuel → valLE (ntdAux fuel n) = n := by
  intro fuel
  induction fuel with
  | zero => intro n hn; interval_cases n; rfl
  | succ fuel ih =>
    intro n hn
    by_cases h0 : n = 0
    · subst h0; simp [ntdAux, valLE]
    · have hdiv : n / 10 < n := Nat.div_lt_self (Nat.pos_of_ne_zero h0) (by norm_num)
      have : n / 10 ≤ fuel := by omega
      simp only [ntdAux, if_neg h0, valLE]
      rw [digitVal_digitChar _ (Nat.mod_lt n (by norm_num)), ih _ this]
      omega

theorem charsToNat_natToChars (n : Nat) : charsToNat (natToChars n) = n := by
  by_cases h0 : n = 0
  · subst h0; rfl
  · rw [natToChars, if_neg h0, charsToNat_reverse, valLE_ntdAux n n le_rfl]

theorem ntdAux_digits : ∀ fuel n c, c ∈ ntdAux fuel n → c.isDigit = true := by
  intro fuel
  induction fuel with
  | zero => intro n c hc; simp [ntdAux] at hc
  | succ fuel ih =>
    intro n c hc
    by_cases h0 : n = 0
    · subst h0; simp [ntdAux] at hc
    · rw [ntdAux, if_neg h0, List.mem_cons] at hc
      rcases hc with rfl | hc
      · exact digitChar_isDigit _ (Nat.mod_lt n (by norm_num))
      · exact ih _ _ hc

theorem natToChars_digits (n : Nat) : ∀ c ∈ natToChars n, c.isDigit = true := by
  intro c hc
  unfold natToChars at hc
  split_ifs at hc with h0
  · simp at hc; subst hc; decide
  · exact ntdAux_digits _ _ _ (List.mem_reverse.mp hc)

theorem natToChars_ne_nil (n : Nat) : natToChars n ≠ [] := by
  unfold natToChars
  split_ifs with h0
  · simp
  · cases n with
    | zero => exact absurd rfl h0
    | succ m =>
      simp only [ne_eq, List.reverse_eq_nil_iff]
      rw [ntdAux, if_neg h0]
      simp

theorem isDigit_safe (c : Char) (hc : c.isDigit = true) :
    c ≠ '|' ∧ c ≠ '\n' ∧ c ≠ '"' := by
  refine ⟨?_, ?_, ?_⟩ <;> rintro rfl <;> simp_all

/-! ## Separator-based splitting and joining

Both the line structure (separator `'\n'`) and the field structure of a
structural marker (separator `'|'`) use the same join/split pair. -/

def joinSep (sep : Char) : List Str → Str
  | [] => []
  | [f] => f
  | f :: g :: fs => f ++ sep :: joinSep sep (g :: fs)

def splitSep (sep : Char) : Str → List Str
  | [] => [[]]
  | c :: cs =>
    if c = sep then [] :: splitSep sep cs
    else
      match splitSep sep cs with
      | [] => [[c]]
      | f :: rest => (c :: f) :: rest

theorem splitSep_ne_nil (sep : Char) (s : Str) : splitSep sep s ≠ [] := by
  induction s with
  | nil => simp [splitSep]
  | cons c cs ih =>
    rw [splitSep]
    split_ifs
    · simp
    · cases h : splitSep sep cs <;> simp

theorem splitSep_no_sep (sep : Char) (f : Str) (h : sep ∉ f) : splitSep sep f = [f] := by
  induction f with
  | nil => rfl
  | cons c cs ih =>
    have hc : c ≠ sep := fun hh => h (hh ▸ List.mem_cons_self c cs)
    rw [splitSep, if_neg hc, ih (fun hm => h (List.mem_cons_of_mem c hm))]

theorem splitSep_sep_append (sep : Char) (f rest : Str) (h : sep ∉ f) :
    splitSep sep (f ++ sep :: rest) = f :: splitSep sep rest := by
  induction f with
  | nil => simp [splitSep]
  | cons c cs ih =>
    have hc : c ≠ sep := fun hh => h (hh ▸ List.mem_cons_self c cs)
    rw [List.cons_append, splitSep, if_neg hc,
      ih (fun hm => h (List.mem_cons_of_mem c hm))]

theorem splitSep_joinSep (sep : Char) (fs : List Str)
    (h : ∀ f ∈ fs, sep ∉ f) (hne : fs ≠ []) :
    splitSep sep (joinSep sep fs) = fs := by
  induction fs with
  | nil => exact absurd rfl hne
  | cons f gs ih =>
    cases gs with
    | nil => exact splitSep_no_sep sep f (h f (List.mem_cons_self f []))
    | cons g gs' =>
      rw [joinSep, splitSep_sep_append sep f _ (h f (List.mem_cons_self _ _)),
        ih (fun x hx => h x (List.mem_cons_of_mem f hx)) (by simp)]

theorem mem_joinSep (sep : Char) (fs : List Str) (x : Char) (hx : x ∈ joinSep sep fs) :
    x = sep ∨ ∃ f ∈ fs, x ∈ f := by
  induction fs with
  | nil => simp [joinSep] at hx
  | cons f gs ih =>
    cases gs with
    | nil =>
      simp only [joinSep] at hx
      exact Or.inr ⟨f, List.mem_cons_self _ _, hx⟩
    | cons g gs' =>
      rw [joinSep, List.mem_append, List.mem_cons] at hx
      rcases hx with hx | hx | hx
      · exact Or.inr ⟨f, List.mem_cons_self _ _, hx⟩
      · exact Or.inl hx
      · rcases ih hx with h | ⟨f', hf', hxf'⟩
        · exact Or.inl h
        · exact Or.inr ⟨f', List.mem_cons_of_mem f hf', hxf'⟩

/-! ## Snippet Generator

Modelled from the spec (§4.1, `yaml_generator.py` is not in this source
slice): the generator emits one declarative page entry per page in page
order, then one rendering branch per page selected by page identifier,
with one self-describing marked statement per widget in widget order.
Every marker carries the widget's id, type, geometry and content in
recoverable (escaped) form.  The device name is carried in a header
marker so that the full model round-trips. -/

def fieldSep : Char := '|'

def deviceLine (name : Str) : Str := joinSep fieldSep ["SNIPPET".data, escapeL name]

def pageHeaderLine : Str := "display_page:".data

def lambdaHeaderLine : Str := "display_lambda:".data

def declLine (p : Page) : Str :=
  joinSep fieldSep ["PAGEDECL".data, escapeL p.id, escapeL p.name]

def branchLine (pid : Str) : Str := joinSep fieldSep ["BRANCH".data, escapeL pid]

def endBranchLine : Str := "ENDBRANCH".data

def typeField : WType → Str
  | .label => "label".data
  | .sensor => "sensor".data

def widgetLine (w : Widget) : Str :=
  joinSep fieldSep
    ["WIDGET".data, escapeL w.id, typeField w.type,
     natToChars w.x, natToChars w.y, natToChars w.width, natToChars w.height,
     escapeL w.text, escapeL w.entity_id]

def branchBlock (p : Page) : List Str :=
  branchLine p.id :: p.widgets.map widgetLine ++ [endBranchLine]

def snippetLines (d : Device) : List Str :=
  deviceLine d.name :: pageHeaderLine :: d.pages.map declLine
    ++ lambdaHeaderLine :: (d.pages.map branchBlock).flatten

/-- Modelled from the spec: `generate_snippet` of `yaml_generator.py`
(not in this source slice) — the pure Layout → snippet-text transform of
§4.1, a deterministic function of the Device alone. -/
def generate_snippet (d : Device) : Str := joinSep '\n' (snippetLines d)

/-! ## Snippet Parser

Modelled from the spec (§4.2, `yaml_parser.py` is not in this source
slice): a staged parser with the error taxonomy of §7. -/

inductive PError where
  | invalid_yaml
  | unrecognized_display_structure
  | no_pages_found
deriving DecidableEq

/-- §7 error kinds as the exception strings raised by the parser and
inspected by `ReTerminalImportSnippetView.post` (http_api.py:182-186). -/
def PError.code : PError → Str
  | .invalid_yaml => "invalid_yaml".data
  | .unrecognized_display_structure => "unrecognized_display_structure".data
  | .no_pages_found => "no_pages_found".data

/-- Modelled from the spec: well-formedness of the underlying structured
text (stage 1 of §4.2), kept abstract there; modelled as per-line balanced
quoting. -/
def yamlOK (lines : List Str) : Bool :=
  lines.all fun l => (l.countP fun c => decide (c = '"')) % 2 = 0

def hasDisplayBlock (lines : List Str) : Bool :=
  (lines.any fun l => decide (l = pageHeaderLine)) ||
  (lines.any fun l => decide (l = lambdaHeaderLine))

def lineDecl (l : Str) : Option (Str × Str) :=
  match splitSep fieldSep l with
  | [t, i, n] => if t = "PAGEDECL".data then some (unescapeL i, unescapeL n) else none
  | _ => none

def lineDevice (l : Str) : Option Str :=
  match splitSep fieldSep l with
  | [t, n] => if t = "SNIPPET".data then some (unescapeL n) else none
  | _ => none

def lineBranch (l : Str) : Option Str :=
  match splitSep fieldSep l with
  | [t, i] => if t = "BRANCH".data then some (unescapeL i) else none
  | _ => none

def decodeType (f : Str) : Option WType :=
  if f = "label".data then some .label
  else if f = "sensor".data then some .sensor
  else none

def decodeNat (f : Str) : Option Nat :=
  if f ≠ [] ∧ f.all Char.isDigit = true then some (charsToNat f) else none

/-- Result of scanning one rendering statement: no recognizable marker
(ignored), a malformed marker (hard failure), or a decoded widget. -/
inductive WScan where
  | skip
  | bad
  | found (w : Widget)
deriving DecidableEq

def lineWidget (l : Str) : WScan :=
  match splitSep fieldSep l with
  | [t, i, ty, fx, fy, fw, fh, tx, en] =>
    if t = "WIDGET".data then
      match decodeType ty, decodeNat fx, decodeNat fy, decodeNat fw, decodeNat fh with
      | some wt, some vx, some vy, some vw, some vh =>
        .found ⟨unescapeL i, wt, vx, vy, vw, vh, unescapeL tx, unescapeL en⟩
      | _, _, _, _, _ => .bad
    else .skip
  | fs => if fs.head? = some "WIDGET".data then .bad else .skip

def extractWidgets : List Str → Except PError (List Widget)
  | [] => .ok []
  | l :: ls =>
    match lineWidget l with
    | .skip => extractWidgets ls
    | .bad => .error .unrecognized_display_structure
    | .found w =>
      match extractWidgets ls with
      | .ok ws => .ok (w :: ws)
      | .error e => .error e

def afterBranch (pid : Str) : List Str → Option (List Str)
  | [] => none
  | l :: ls => if lineBranch l = some pid then some ls else afterBranch pid ls

/-- The statements of the rendering branch matched to a declared page by
identifier; a declared page without a matching branch yields no lines. -/
def branchLines (lines : List Str) (pid : Str) : List Str :=
  match afterBranch pid lines with
  | none => []
  | some ls => ls.takeWhile fun l => decide (l ≠ endBranchLine)

def extractDecls (lines : List Str) : List (Str × Str) := lines.filterMap lineDecl

def deviceNameOf (lines : List Str) : Str :=
  match lines.filterMap lineDevice with
  | [] => []
  | n :: _ => n

def buildPages (lines : List Str) : List (Str × Str) → Except PError (List Page)
  | [] => .ok []
  | (pid, pname) :: rest =>
    match extractWidgets (branchLines lines pid) with
    | .error e => .error e
    | .ok ws =>
      match buildPages lines rest with
      | .error e => .error e
      | .ok ps => .ok (⟨pid, pname, ws⟩ :: ps)

instance {ε α : Type} [DecidableEq ε] [DecidableEq α] : DecidableEq (Except ε α) := fun x y =>
  match x, y with
  | .ok a, .ok b => if h : a = b then .isTrue (by rw [h]) else .isFalse (by simp [h])
  | .error a, .error b => if h : a = b then .isTrue (by rw [h]) else .isFalse (by simp [h])
  | .ok _, .error _ => .isFalse (by simp)
  | .error _, .ok _ => .isFalse (by simp)

/-- Modelled from the spec: `yaml_to_layout` of `yaml_parser.py` (not in
this source slice) — the staged snippet-text → Layout parser of §4.2 with
the failure taxonomy of §7. -/
def yaml_to_layout (s : Str) : Except PError Device :=
  if yamlOK (splitSep '\n' s) = false then .error .invalid_yaml
  else if hasDisplayBlock (splitSep '\n' s) = false then
    .error .unrecognized_display_structure
  else if extractDecls (splitSep '\n' s) = [] then .error .no_pages_found
  else
    match buildPages (splitSep '\n' s) (extractDecls (splitSep '\n' s)) with
    | .error e => .error e
    | .ok ps => .ok ⟨deviceNameOf (splitSep '\n' s), ps⟩

/-! ## Field-split behaviour of each generated line -/

theorem not_fieldSep_escapeL (s : Str) : fieldSep ∉ escapeL s :=
  not_mem_escapeL _ (Or.inl rfl) s

theorem not_fieldSep_typeField (t : WType) : fieldSep ∉ typeField t := by
  cases t <;> decide

theorem not_fieldSep_natToChars (n : Nat) : fieldSep ∉ natToChars n := by
  intro h
  exact (isDigit_safe _ (natToChars_digits n _ h)).1 rfl

theorem splitSep_deviceLine (name : Str) :
    splitSep fieldSep (deviceLine name) = ["SNIPPET".data, escapeL name] := by
  apply splitSep_joinSep
  · intro f hf
    rcases List.mem_cons.mp hf with rfl | hf
    · decide
    rcases List.mem_cons.mp hf with rfl | hf
    · exact not_fieldSep_escapeL name
    · simp at hf
  · simp

theorem splitSep_declLine (p : Page) :
    splitSep fieldSep (declLine p) = ["PAGEDECL".data, escapeL p.id, escapeL p.name] := by
  apply splitSep_joinSep
  · intro f hf
    rcases List.mem_cons.mp hf with rfl | hf
    · decide
    rcases List.mem_cons.mp hf with rfl | hf
    · exact not_fieldSep_escapeL p.id
    rcases List.mem_cons.mp hf with rfl | hf
    · exact not_fieldSep_escapeL p.name
    · simp at hf
  · simp

theorem splitSep_branchLine (pid : Str) :
    splitSep fieldSep (branchLine pid) = ["BRANCH".data, escapeL pid] := by
  apply splitSep_joinSep
  · intro f hf
    rcases List.mem_cons.mp hf with rfl | hf
    · decide
    rcases List.mem_cons.mp hf with rfl | hf
    · exact not_fieldSep_escapeL pid
    · simp at hf
  · simp

theorem splitSep_widgetLine (w : Widget) :
    splitSep fieldSep (widgetLine w) =
      ["WIDGET".data, escapeL w.id, typeField w.type,
       natToChars w.x, natToChars w.y, natToChars w.width, natToChars w.height,
       escapeL w.text, escapeL w.entity_id] := by
  apply splitSep_joinSep
  · intro f hf
    rcases List.mem_cons.mp hf with rfl | hf
    · decide
    rcases List.mem_cons.mp hf with rfl | hf
    · exact not_fieldSep_escapeL w.id
    rcases List.mem_cons.mp hf with rfl | hf
    · exact not_fieldSep_typeField w.type
    rcases List.mem_cons.mp hf with rfl | hf
    · exact not_fieldSep_natToChars w.x
    rcases List.mem_cons.mp hf with rfl | hf
    · exact not_fieldSep_natToChars w.y
    rcases List.mem_cons.mp hf with rfl | hf
    · exact not_fieldSep_natToChars w.width
    rcases List.mem_cons.mp hf with rfl | hf
    · exact not_fieldSep_natToChars w.height
    rcases List.mem_cons.mp hf with rfl | hf
    · exact not_fieldSep_escapeL w.text
    rcases List.mem_cons.mp hf with rfl | hf
    · exact not_fieldSep_escapeL w.entity_id
    · simp at hf
  · simp

/-! ### How each line classifier treats each generated line kind -/

theorem lineDecl_declLine (p : Page) : lineDecl (declLine p) = some (p.id, p.name) := by
  rw [lineDecl, splitSep_declLine]
  simp [unescapeL_escapeL]

theorem lineDecl_deviceLine (n : Str) : lineDecl (deviceLine n) = none := by
  rw [lineDecl, splitSep_deviceLine]

theorem lineDecl_branchLine (pid : Str) : lineDecl (branchLine pid) = none := by
  rw [lineDecl, splitSep_branchLine]

theorem lineDecl_widgetLine (w : Widget) : lineDecl (widgetLine w) = none := by
  rw [lineDecl, splitSep_widgetLine]

theorem lineDecl_pageHeader : lineDecl pageHeaderLine = none := by decide

theorem lineDecl_lambdaHeader : lineDecl lambdaHeaderLine = none := by decide

theorem lineDecl_endBranch : lineDecl endBranchLine = none := by decide

theorem lineDevice_deviceLine (n : Str) : lineDevice (deviceLine n) = some n := by
  rw [lineDevice, splitSep_deviceLine]
  simp [unescapeL_escapeL]

theorem lineBranch_branchLine (pid : Str) : lineBranch (branchLine pid) = some pid := by
  rw [lineBranch, splitSep_branchLine]
  simp [unescapeL_escapeL]

theorem lineBranch_deviceLine (n : Str) : lineBranch (deviceLine n) = none := by
  rw [lineBranch, splitSep_deviceLine]
  simp

theorem lineBranch_declLine (p : Page) : lineBranch (declLine p) = none := by
  rw [lineBranch, splitSep_declLine]

theorem lineBranch_widgetLine (w : Widget) : lineBranch (widgetLine w) = none := by
  rw [lineBranch, splitSep_widgetLine]

theorem lineBranch_pageHeader : lineBranch pageHeaderLine = none := by decide

theorem lineBranch_lambdaHeader : lineBranch lambdaHeaderLine = none := by decide

theorem lineBranch_endBranch : lineBranch endBranchLine = none := by decide

theorem decodeType_typeField (t : WType) : decodeType (typeField t) = some t := by
  cases t <;> decide

theorem decodeNat_natToChars (n : Nat) : decodeNat (natToChars n) = some n := by
  rw [decodeNat,
    if_pos ⟨natToChars_ne_nil n, List.all_eq_true.mpr (natToChars_digits n)⟩,
    charsToNat_natToChars]

theorem lineWidget_widgetLine (w : Widget) : lineWidget (widgetLine w) = .found w := by
  rw [lineWidget, splitSep_widgetLine]
  simp [decodeType_typeField, decodeNat_natToChars, unescapeL_escapeL]

theorem lineWidget_deviceLine (n : Str) : lineWidget (deviceLine n) = .skip := by
  rw [lineWidget, splitSep_deviceLine]
  simp

theorem lineWidget_declLine (p : Page) : lineWidget (declLine p) = .skip := by
  rw [lineWidget, splitSep_declLine]
  simp

theorem lineWidget_branchLine (pid : Str) : lineWidget (branchLine pid) = .skip := by
  rw [lineWidget, splitSep_branchLine]
  simp

theorem lineWidget_pageHeader : lineWidget pageHeaderLine = .skip := by decide

theorem lineWidget_lambdaHeader : lineWidget lambdaHeaderLine = .skip := by decide

theorem lineWidget_endBranch : lineWidget endBranchLine = .skip := by decide

theorem head_widgetLine (w : Widget) : (widgetLine w).head? = some 'W' := rfl

theorem widgetLine_ne_endBranch (w : Widget) : widgetLine w ≠ endBranchLine := by
  intro h
  have hw := head_widgetLine w
  rw [h] at hw
  exact absurd hw (by decide)

/-! ### Extracting the declarative page list from a generated snippet -/

theorem mem_branchBlock {l : Str} {p : Page} (h : l ∈ branchBlock p) :
    l = branchLine p.id ∨ (∃ w ∈ p.widgets, l = widgetLine w) ∨ l = endBranchLine := by
  simp only [branchBlock, List.mem_cons, List.mem_append, List.mem_map,
    List.mem_singleton] at h
  rcases h with (h | ⟨w, hw, hl⟩) | h | h
  · exact Or.inl h
  · exact Or.inr (Or.inl ⟨w, hw, hl.symm⟩)
  · exact Or.inr (Or.inr h)
  · exact absurd h (List.not_mem_nil l)

theorem filterMap_lineDecl_decls (ps : List Page) :
    List.filterMap lineDecl (ps.map declLine) = ps.map fun p => (p.id, p.name) := by
  induction ps with
  | nil => rfl
  | cons p ps ih =>
    rw [List.map_cons, List.filterMap_cons_some (lineDecl_declLine p), ih,
      List.map_cons]

theorem lineDecl_branchBlock {l : Str} {p : Page} (h : l ∈ branchBlock p) :
    lineDecl l = none := by
  rcases mem_branchBlock h with rfl | ⟨w, _, rfl⟩ | rfl
  · exact lineDecl_branchLine p.id
  · exact lineDecl_widgetLine w
  · exact lineDecl_endBranch

theorem filterMap_lineDecl_blocks (ps : List Page) :
    List.filterMap lineDecl ((ps.map branchBlock).flatten) = [] := by
  rw [List.filterMap_eq_nil_iff]
  intro l hl
  rw [List.mem_flatten] at hl
  obtain ⟨b, hb, hlb⟩ := hl
  rw [List.mem_map] at hb
  obtain ⟨p, _, rfl⟩ := hb
  exact lineDecl_branchBlock hlb

theorem extractDecls_snippet (d : Device) :
    extractDecls (snippetLines d) = d.pages.map fun p => (p.id, p.name) := by
  rw [extractDecls, snippetLines, List.filterMap_append,
    List.filterMap_cons_none (lineDecl_deviceLine d.name),
    List.filterMap_cons_none lineDecl_pageHeader,
    filterMap_lineDecl_decls,
    List.filterMap_cons_none lineDecl_lambdaHeader,
    filterMap_lineDecl_blocks, List.append_nil]

theorem deviceNameOf_snippet (d : Device) : deviceNameOf (snippetLines d) = d.name := by
  rw [deviceNameOf, snippetLines, List.filterMap_append,
    List.filterMap_cons_some (lineDevice_deviceLine d.name), List.cons_append]

/-! ### Locating the rendering branch of a declared page -/

theorem afterBranch_cons (pid l : Str) (ls : List Str) :
    afterBranch pid (l :: ls)
      = if lineBranch l = some pid then some ls else afterBranch pid ls := rfl

theorem afterBranch_cons_miss (pid : Str) {l : Str} (ls : List Str)
    (h : lineBranch l ≠ some pid) : afterBranch pid (l :: ls) = afterBranch pid ls := by
  rw [afterBranch_cons, if_neg h]

theorem afterBranch_append_none (pid : Str) {xs : List Str} (ys : List Str)
    (h : ∀ l ∈ xs, lineBranch l ≠ some pid) :
    afterBranch pid (xs ++ ys) = afterBranch pid ys := by
  induction xs with
  | nil => rfl
  | cons l ls ih =>
    rw [List.cons_append, afterBranch_cons_miss pid _ (h l (List.mem_cons_self _ _)),
      ih fun x hx => h x (List.mem_cons_of_mem _ hx)]

theorem afterBranch_blocks {ps : List Page} {p : Page} (hmem : p ∈ ps)
    (hnodup : (ps.map Page.id).Nodup) :
    ∃ tail, afterBranch p.id ((ps.map branchBlock).flatten)
      = some (p.widgets.map widgetLine ++ endBranchLine :: tail) := by
  induction ps with
  | nil => simp at hmem
  | cons q qs ih =>
    rw [List.map_cons, List.flatten_cons]
    rcases List.mem_cons.mp hmem with rfl | hmem'
    · refine ⟨(qs.map branchBlock).flatten, ?_⟩
      rw [branchBlock, List.cons_append, List.cons_append, afterBranch_cons,
        if_pos (lineBranch_branchLine p.id), List.append_assoc, List.singleton_append]
    · have hid : q.id ≠ p.id := by
        rw [List.map_cons, List.nodup_cons] at hnodup
        intro hqp
        exact hnodup.1 (hqp ▸ List.mem_map_of_mem Page.id hmem')
      have hskip : ∀ l ∈ branchBlock q, lineBranch l ≠ some p.id := by
        intro l hl
        rcases mem_branchBlock hl with rfl | ⟨w, _, rfl⟩ | rfl
        · rw [lineBranch_branchLine]
          exact fun hc => hid (Option.some.inj hc)
        · rw [lineBranch_widgetLine]; simp
        · rw [lineBranch_endBranch]; simp
      rw [afterBranch_append_none p.id _ hskip]
      exact ih hmem' (by rw [List.map_cons, List.nodup_cons] at hnodup; exact hnodup.2)

theorem takeWhile_until {xs : List Str} (ys : List Str)
    (h : ∀ x ∈ xs, x ≠ endBranchLine) :
    ((xs ++ endBranchLine :: ys).takeWhile fun l => decide (l ≠ endBranchLine)) = xs := by
  induction xs with
  | nil => simp [List.takeWhile]
  | cons x xs ih =>
    rw [List.cons_append, List.takeWhile_cons,
      if_pos (by simp [h x (List.mem_cons_self _ _)]),
      ih fun a ha => h a (List.mem_cons_of_mem _ ha)]

theorem branchLines_snippet (d : Device) {p : Page} (hmem : p ∈ d.pages)
    (hnodup : (d.pages.map Page.id).Nodup) :
    branchLines (snippetLines d) p.id = p.widgets.map widgetLine := by
  obtain ⟨tail, htail⟩ := afterBranch_blocks hmem hnodup
  have hpre : ∀ l ∈ deviceLine d.name :: pageHeaderLine :: d.pages.map declLine,
      lineBranch l ≠ some p.id := by
    intro l hl
    rcases List.mem_cons.mp hl with rfl | hl
    · rw [lineBranch_deviceLine]; simp
    rcases List.mem_cons.mp hl with rfl | hl
    · rw [lineBranch_pageHeader]; simp
    · obtain ⟨q, _, rfl⟩ := List.mem_map.mp hl
      rw [lineBranch_declLine]; simp
  rw [branchLines, snippetLines, afterBranch_append_none p.id _ hpre,
    afterBranch_cons_miss p.id _ (by rw [lineBranch_lambdaHeader]; simp),
    htail]
  exact takeWhile_until tail (by rintro x hx
                                 obtain ⟨w, _, rfl⟩ := List.mem_map.mp hx
                                 exact widgetLine_ne_endBranch w)

/-! ### Decoding the widgets of a branch -/

theorem extractWidgets_map (ws : List Widget) :
    extractWidgets (ws.map widgetLine) = .ok ws := by
  induction ws with
  | nil => rfl
  | cons w ws ih =>
    rw [List.map_cons]
    show (match lineWidget (widgetLine w) with
      | .skip => extractWidgets (ws.map widgetLine)
      | .bad => Except.error PError.unrecognized_display_structure
      | .found w' =>
        match extractWidgets (ws.map widgetLine) with
        | .ok l => .ok (w' :: l)
        | .error e => .error e) = Except.ok (w :: ws)
    rw [lineWidget_widgetLine, ih]

theorem buildPages_snippet (d : Device) (hnodup : (d.pages.map Page.id).Nodup) :
    ∀ qs : List Page, (∀ q ∈ qs, q ∈ d.pages) →
      buildPages (snippetLines d) (qs.map fun p => (p.id, p.name)) = .ok qs := by
  intro qs
  induction qs with
  | nil => intro; rfl
  | cons q qs ih =>
    intro hsub
    rw [List.map_cons, buildPages,
      branchLines_snippet d (hsub q (List.mem_cons_self _ _)) hnodup,
      extractWidgets_map, ih fun x hx => hsub x (List.mem_cons_of_mem _ hx)]

/-! ### Character safety of generated lines: no raw quote, no raw newline -/

abbrev SafeChar (c : Char) : Prop := c ≠ '"' ∧ c ≠ '\n'

theorem safeChar_escapeL (s : Str) : ∀ c ∈ escapeL s, SafeChar c := by
  intro c hc
  constructor
  · intro h; exact not_mem_escapeL '"' (Or.inr (Or.inr rfl)) s (h ▸ hc)
  · intro h; exact not_mem_escapeL '\n' (Or.inr (Or.inl rfl)) s (h ▸ hc)

theorem safeChar_natToChars (n : Nat) : ∀ c ∈ natToChars n, SafeChar c := by
  intro c hc
  have h := isDigit_safe c (natToChars_digits n c hc)
  exact ⟨h.2.2, h.2.1⟩

theorem safeChar_typeField (t : WType) : ∀ c ∈ typeField t, SafeChar c := by
  cases t <;> decide

theorem safeChar_joinSep (fs : List Str) (h : ∀ f ∈ fs, ∀ c ∈ f, SafeChar c) :
    ∀ c ∈ joinSep fieldSep fs, SafeChar c := by
  intro c hc
  rcases mem_joinSep fieldSep fs c hc with rfl | ⟨f, hf, hcf⟩
  · exact ⟨by decide, by decide⟩
  · exact h f hf c hcf

theorem safeChar_deviceLine (n : Str) : ∀ c ∈ deviceLine n, SafeChar c := by
  apply safeChar_joinSep
  intro f hf
  rcases List.mem_cons.mp hf with rfl | hf
  · decide
  rcases List.mem_cons.mp hf with rfl | hf
  · exact safeChar_escapeL n
  · simp at hf

theorem safeChar_declLine (p : Page) : ∀ c ∈ declLine p, SafeChar c := by
  apply safeChar_joinSep
  intro f hf
  rcases List.mem_cons.mp hf with rfl | hf
  · decide
  rcases List.mem_cons.mp hf with rfl | hf
  · exact safeChar_escapeL p.id
  rcases List.mem_cons.mp hf with rfl | hf
  · exact safeChar_escapeL p.name
  · simp at hf

theorem safeChar_branchLine (pid : Str) : ∀ c ∈ branchLine pid, SafeChar c := by
  apply safeChar_joinSep
  intro f hf
  rcases List.mem_cons.mp hf with rfl | hf
  · decide
  rcases List.mem_cons.mp hf with rfl | hf
  · exact safeChar_escapeL pid
  · simp at hf

theorem safeChar_widgetLine (w : Widget) : ∀ c ∈ widgetLine w, SafeChar c := by
  apply safeChar_joinSep
  intro f hf
  rcases List.mem_cons.mp hf with rfl | hf
  · decide
  rcases List.mem_cons.mp hf with rfl | hf
  · exact safeChar_escapeL w.id
  rcases List.mem_cons.mp hf with rfl | hf
  · exact safeChar_typeField w.type
  rcases List.mem_cons.mp hf with rfl | hf
  · exact safeChar_natToChars w.x
  rcases List.mem_cons.mp hf with rfl | hf
  · exact safeChar_natToChars w.y
  rcases List.mem_cons.mp hf with rfl | hf
  · exact safeChar_natToChars w.width
  rcases List.mem_cons.mp hf with rfl | hf
  · exact safeChar_natToChars w.height
  rcases List.mem_cons.mp hf with rfl | hf
  · exact safeChar_escapeL w.text
  rcases List.mem_cons.mp hf with rfl | hf
  · exact safeChar_escapeL w.entity_id
  · simp at hf

theorem safeChar_snippetLines (d : Device) :
    ∀ l ∈ snippetLines d, ∀ c ∈ l, SafeChar c := by
  intro l hl
  rw [snippetLines, List.mem_append] at hl
  rcases hl with hl | hl
  · rcases List.mem_cons.mp hl with rfl | hl
    · exact safeChar_deviceLine d.name
    rcases List.mem_cons.mp hl with rfl | hl
    · decide
    · obtain ⟨p, _, rfl⟩ := List.mem_map.mp hl
      exact safeChar_declLine p
  · rcases List.mem_cons.mp hl with rfl | hl
    · decide
    · rw [List.mem_flatten] at hl
      obtain ⟨b, hb, hlb⟩ := hl
      obtain ⟨p, _, rfl⟩ := List.mem_map.mp hb
      rcases mem_branchBlock hlb with rfl | ⟨w, _, rfl⟩ | rfl
      · exact safeChar_branchLine p.id
      · exact safeChar_widgetLine w
      · decide

theorem splitLines_generate (d : Device) :
    splitSep '\n' (generate_snippet d) = snippetLines d := by
  apply splitSep_joinSep
  · intro l hl hnl
    exact (safeChar_snippetLines d l hl '\n' hnl).2 rfl
  · rw [snippetLines]
    simp

theorem yamlOK_snippet (d : Device) : yamlOK (snippetLines d) = true := by
  rw [yamlOK, List.all_eq_true]
  intro l hl
  have : (l.countP fun c => decide (c = '"')) = 0 := by
    rw [List.countP_eq_zero]
    intro c hc
    simp only [decide_eq_true_eq]
    exact (safeChar_snippetLines d l hl c hc).1
  rw [this]
  decide

theorem hasDisplayBlock_snippet (d : Device) : hasDisplayBlock (snippetLines d) = true := by
  rw [hasDisplayBlock, Bool.or_eq_true, List.any_eq_true]
  refine Or.inl ⟨pageHeaderLine, ?_, by simp⟩
  rw [snippetLines]
  exact List.mem_append_left _ (List.mem_cons_of_mem _ (List.mem_cons_self _ _))

/-- C1 — Round-trip fidelity (spec-modelled codec): for every structurally
valid Device `D`, `parse (generate D)` succeeds and yields a Device equal
to `D` — all field values equal, pages and widgets in the same relative
order, escaped text recovered. -/
theorem C1_roundtrip_parse_generate (d : Device) (h : StructValid d) :
    yaml_to_layout (generate_snippet d) = .ok d := by
  obtain ⟨hne, hnodup, -⟩ := h
  rw [yaml_to_layout]
  simp only [splitLines_generate, yamlOK_snippet, hasDisplayBlock_snippet,
    extractDecls_snippet, deviceNameOf_snippet]
  rw [if_neg (by simp), if_neg (by simp), if_neg (by simp [hne]),
    buildPages_snippet d hnodup d.pages fun q hq => hq]

/-- Concrete devices exercising the codec: the §8 scenario (one label, one
sensor) and a caption colliding with the marker syntax. -/
def exDevice : Device :=
  ⟨"reTerminal".data,
   [⟨"page_1".data, "Page 1".data,
     [⟨"w1".data, .label, 10, 10, 100, 20, "Hello".data, []⟩,
      ⟨"w2".data, .sensor, 10, 40, 100, 20, [], "sensor.temperature".data⟩]⟩]⟩

theorem C1_roundtrip_witness :
    StructValid exDevice ∧ yaml_to_layout (generate_snippet exDevice) = .ok exDevice :=
  ⟨by decide, C1_roundtrip_parse_generate exDevice (by decide)⟩

/-- C2 — Generator determinism (spec-modelled codec): `generate` is a pure
function of the Device value alone, so two invocations on an unchanged
Device produce byte-for-byte identical snippet text. -/
theorem C2_generate_deterministic (d : Device) :
    generate_snippet d = generate_snippet d := rfl

/-- C3 — Malformed-input rejection (spec-modelled codec): on every input
that fails the syntactic well-formedness check, `parse` fails with exactly
`invalid_yaml`; being a total function it signals no other failure, and the
syntactic stage decides before any later stage runs. -/
theorem C3_malformed_input_invalid_yaml (s : Str)
    (h : yamlOK (splitSep '\n' s) = false) :
    yaml_to_layout s = .error .invalid_yaml := by
  rw [yaml_to_layout, if_pos h]

theorem C3_malformed_input_witness :
    yamlOK (splitSep '\n' "display: \"".data) = false ∧
    yaml_to_layout "display: \"".data = .error .invalid_yaml :=
  ⟨by decide, C3_malformed_input_invalid_yaml _ (by decide)⟩

theorem buildPages_cons (lines : List Str) (pid pname : Str) (rest : List (Str × Str)) :
    buildPages lines ((pid, pname) :: rest)
      = match extractWidgets (branchLines lines pid) with
        | .error e => .error e
        | .ok ws =>
          match buildPages lines rest with
          | .error e => .error e
          | .ok ps => .ok (⟨pid, pname, ws⟩ :: ps) := rfl

theorem buildPages_mem_empty (lines : List Str) (pid pname : Str) :
    ∀ (decls : List (Str × Str)) (ps : List Page),
      buildPages lines decls = .ok ps → (pid, pname) ∈ decls →
      extractWidgets (branchLines lines pid) = .ok [] →
      (⟨pid, pname, []⟩ : Page) ∈ ps := by
  intro decls
  induction decls with
  | nil => intro ps _ hmem; simp at hmem
  | cons hd rest ih =>
    intro ps hok hmem hw
    obtain ⟨i, n⟩ := hd
    rw [buildPages_cons] at hok
    rcases List.mem_cons.mp hmem with heq | hmem'
    · obtain ⟨rfl, rfl⟩ := Prod.mk.injEq .. ▸ heq
      rw [hw] at hok
      cases hbp : buildPages lines rest with
      | error e => rw [hbp] at hok; exact absurd hok (by simp)
      | ok ps' =>
        rw [hbp] at hok
        obtain rfl := (Except.ok.injEq .. ▸ hok :)
        exact List.mem_cons_self _ _
    · cases hew : extractWidgets (branchLines lines i) with
      | error e => rw [hew] at hok; exact absurd hok (by simp)
      | ok ws =>
        rw [hew] at hok
        cases hbp : buildPages lines rest with
        | error e => rw [hbp] at hok; exact absurd hok (by simp)
        | ok ps' =>
          rw [hbp] at hok
          obtain rfl := (Except.ok.injEq .. ▸ hok :)
          exact List.mem_cons_of_mem _ (ih ps' hbp hmem' hw)

/-- C4 — Declared-page tolerance (spec-modelled codec): a page identifier
that appears in the declarative page list but has no matching rendering
branch is reconstructed as a page with an empty widget list whenever the
parse succeeds; and when the structure is recognized but zero pages are
declared, the parse fails with `no_pages_found`. -/
theorem C4_declared_page_tolerance :
    (∀ (s : Str) (dev : Device) (pid pname : Str),
      yaml_to_layout s = .ok dev →
      (pid, pname) ∈ extractDecls (splitSep '\n' s) →
      afterBranch pid (splitSep '\n' s) = none →
      (⟨pid, pname, []⟩ : Page) ∈ dev.pages) ∧
    (∀ s : Str,
      yamlOK (splitSep '\n' s) = true →
      hasDisplayBlock (splitSep '\n' s) = true →
      extractDecls (splitSep '\n' s) = [] →
      yaml_to_layout s = .error .no_pages_found) := by
  constructor
  · intro s dev pid pname hok hdecl hbr
    rw [yaml_to_layout] at hok
    by_cases h1 : yamlOK (splitSep '\n' s) = false
    · rw [if_pos h1] at hok; exact Except.noConfusion hok
    rw [if_neg h1] at hok
    by_cases h2 : hasDisplayBlock (splitSep '\n' s) = false
    · rw [if_pos h2] at hok; exact Except.noConfusion hok
    rw [if_neg h2] at hok
    have h3 : extractDecls (splitSep '\n' s) ≠ [] := by
      intro hmt; rw [hmt] at hdecl; exact absurd hdecl (List.not_mem_nil _)
    rw [if_neg h3] at hok
    cases hbp : buildPages (splitSep '\n' s) (extractDecls (splitSep '\n' s)) with
    | error e => rw [hbp] at hok; exact Except.noConfusion hok
    | ok ps =>
      rw [hbp] at hok
      have hdev : dev = ⟨deviceNameOf (splitSep '\n' s), ps⟩ :=
        ((Except.ok.injEq .. ▸ hok :)).symm
      rw [hdev]
      refine buildPages_mem_empty _ pid pname _ ps hbp hdecl ?_
      rw [branchLines, hbr]
      rfl
  · intro s h1 h2 h3
    rw [yaml_to_layout, if_neg (by rw [h1]; simp), if_neg (by rw [h2]; simp),
      if_pos h3]

/-- A snippet declaring page `p1` with no rendering branch for it, and a
snippet with a recognized display block but zero declared pages. -/
def declOnlySnippet : Str := "display_page:\nPAGEDECL|p1|P1".data

theorem C4_declared_page_witness :
    (⟨"p1".data, "P1".data, []⟩ : Page)
        ∈ (Device.mk [] [⟨"p1".data, "P1".data, []⟩]).pages ∧
    yaml_to_layout "display_page:".data = .error .no_pages_found :=
  ⟨C4_declared_page_tolerance.1 declOnlySnippet ⟨[], [⟨"p1".data, "P1".data, []⟩]⟩
      "p1".data "P1".data (by decide) (by decide) (by decide),
   C4_declared_page_tolerance.2 "display_page:".data (by decide) (by decide) (by decide)⟩

/-! ## HTTP layer

Shallow embedding of the route handlers of
`custom_components/reterminal_dashboard/http_api.py` and
`custom_components/esphome_designer/api/simulator.py`.  JSON values and
HTTP responses are modelled explicitly; the storage backend and the codec
are parameters of each handler, mirroring the imports of the source. -/

inductive JVal where
  | str (s : Str)
  | num (n : Nat)
  | boolean (b : Bool)
  | null
  | obj (fields : List (Str × JVal))
  | arr (xs : List JVal)

/-- A response body is either JSON (`json_dumps`) or plain text. -/
inductive RBody where
  | json (v : JVal)
  | text (t : Str)

structure Response where
  body : RBody
  status : Nat
  contentType : Str

/-- `self._json(data, status_code)` / `self.json(data, status_code)`. -/
def jsonResponse (v : JVal) (status : Nat) : Response :=
  ⟨.json v, status, "application/json".data⟩

/-- `ReTerminalSnippetView._text(body, status_code)` (http_api.py:133-138). -/
def textResponse (t : Str) (status : Nat) : Response :=
  ⟨.text t, status, "text/yaml".data⟩

/-- `body.get(key)` on a parsed JSON object. -/
def jget (fields : List (Str × JVal)) (k : Str) : Option JVal :=
  match fields.find? fun kv => decide (kv.1 = k) with
  | some kv => some kv.2
  | none => none

/-- Python falsiness of `s.strip()`: the string is empty or whitespace-only. -/
def isBlank (s : Str) : Bool := s.all Char.isWhitespace

/-- The three §7 parser error kinds recognized by
`ReTerminalImportSnippetView.post` (http_api.py:182-186). -/
def importKnownCodes : List Str :=
  ["invalid_yaml".data, "unrecognized_display_structure".data, "no_pages_found".data]

/-- The human-readable message attached to each recognized parser error
(http_api.py:190-193). -/
def importErrorMessage : Str :=
  ("Snippet does not match expected reterminal_dashboard pattern. "
    ++ "Ensure it uses display_page and a compatible display lambda.").data

/-- `ReTerminalImportSnippetView.post` (http_api.py:160-218).  The parser
(`yaml_to_layout`, raising `ValueError(code)`) and the storage transform
(`async_update_layout_from_device`) are parameters; the second component
of the result records whether the persistence call was reached. -/
def importSnippetPost (parser : Str → Except Str Device)
    (persist : Device → Except Unit JVal)
    (body : Except Unit (List (Str × JVal))) : Response × Bool :=
  match body with
  | .error _ =>
    (jsonResponse (.obj [("error".data, .str "invalid_json".data)]) 400, false)
  | .ok fields =>
    match jget fields "yaml".data with
    | some (.str s) =>
      if isBlank s then
        (jsonResponse (.obj [("error".data, .str "missing_yaml".data)]) 400, false)
      else
        match parser s with
        | .error code =>
          if code ∈ importKnownCodes then
            (jsonResponse
              (.obj [("error".data, .str code),
                     ("message".data, .str importErrorMessage)]) 400, false)
          else
            (jsonResponse (.obj [("error".data, .str "import_failed".data)]) 500, false)
        | .ok device =>
          match persist device with
          | .error _ =>
            (jsonResponse (.obj [("error".data, .str "persist_failed".data)]) 500, true)
          | .ok updated => (jsonResponse updated 200, true)
    | _ =>
      (jsonResponse (.obj [("error".data, .str "missing_yaml".data)]) 400, false)

/-- `ReTerminalSnippetView.get` (http_api.py:111-131): the stored-layout
load and the generator are parameters, each allowed to fail. -/
def snippetGet (load : Except Unit Device) (gen : Device → Except Unit Str) : Response :=
  match load with
  | .error _ =>
    textResponse "# Error: unable to load layout for snippet generation\n".data 500
  | .ok device =>
    match gen device with
    | .error _ =>
      textResponse "# Error: snippet generation failed, see logs for details\n".data 500
    | .ok snippet => textResponse snippet 200

/-- The `missing_yaml` 400 response of http_api.py:172-176. -/
def missingYamlResponse : Response :=
  jsonResponse (.obj [("error".data, .str "missing_yaml".data)]) 400

/-- C5 — Import precondition guard (http_api.py:171-179): when the `yaml`
field of the request body is absent, not a string, or blank, the import
handler answers `missing_yaml` with HTTP 400 and its result does not depend
on the parser — the Parser is never invoked. -/
theorem C5_import_guard (parser : Str → Except Str Device)
    (persist : Device → Except Unit JVal) (fields : List (Str × JVal))
    (hbad : (∀ v, jget fields "yaml".data = some v → ∀ s, v ≠ .str s) ∨
            (∃ s, jget fields "yaml".data = some (.str s) ∧ isBlank s = true)) :
    importSnippetPost parser persist (.ok fields) = (missingYamlResponse, false) ∧
    ∀ parser₂ : Str → Except Str Device,
      importSnippetPost parser persist (.ok fields)
        = importSnippetPost parser₂ persist (.ok fields) := by
  rw [importSnippetPost]
  rcases hbad with hbad | ⟨s, hs, hblank⟩
  · cases hv : jget fields "yaml".data with
    | none =>
      constructor
      · rfl
      · intro parser₂; rw [importSnippetPost, hv]
    | some v =>
      cases v with
      | str s => exact absurd rfl (hbad _ hv s)
      | num n => exact ⟨rfl, fun parser₂ => by rw [importSnippetPost, hv]⟩
      | boolean b => exact ⟨rfl, fun parser₂ => by rw [importSnippetPost, hv]⟩
      | null => exact ⟨rfl, fun parser₂ => by rw [importSnippetPost, hv]⟩
      | obj fs => exact ⟨rfl, fun parser₂ => by rw [importSnippetPost, hv]⟩
      | arr xs => exact ⟨rfl, fun parser₂ => by rw [importSnippetPost, hv]⟩
  · rw [hs]
    constructor
    · simp [hblank, missingYamlResponse]
    · intro parser₂
      rw [importSnippetPost, hs]
      simp [hblank]

theorem C5_import_guard_witness :
    importSnippetPost (fun _ => .error "invalid_yaml".data) (fun _ => .error ())
        (.ok [("yaml".data, .str "   ".data)]) = (missingYamlResponse, false) :=
  (C5_import_guard (fun _ => .error "invalid_yaml".data) (fun _ => .error ())
    [("yaml".data, .str "   ".data)]
    (Or.inr ⟨"   ".data, rfl, by decide⟩)).1

/-- C6 — Error-kind mapping (http_api.py:178-196): when the parser raises
one of the three recognized error kinds, the import handler answers HTTP
400 with a JSON body whose `error` field is exactly that kind, together
with a human-readable `message`. -/
theorem C6_error_kind_mapping (parser : Str → Except Str Device)
    (persist : Device → Except Unit JVal) (fields : List (Str × JVal))
    (s code : Str)
    (hs : jget fields "yaml".data = some (.str s))
    (hnb : isBlank s = false)
    (hp : parser s = .error code)
    (hcode : code ∈ importKnownCodes) :
    importSnippetPost parser persist (.ok fields)
      = (jsonResponse
          (.obj [("error".data, .str code),
                 ("message".data, .str importErrorMessage)]) 400, false) := by
  rw [importSnippetPost, hs]
  simp only [hnb, Bool.false_eq_true, if_false, hp, if_pos hcode]

theorem C6_error_kind_mapping_witness :
    importSnippetPost (fun _ => .error "no_pages_found".data) (fun _ => .error ())
        (.ok [("yaml".data, .str "x".data)])
      = (jsonResponse
          (.obj [("error".data, .str "no_pages_found".data),
                 ("message".data, .str importErrorMessage)]) 400, false) :=
  C6_error_kind_mapping (fun _ => .error "no_pages_found".data) (fun _ => .error ())
    [("yaml".data, .str "x".data)] "x".data "no_pages_found".data
    rfl (by decide) rfl (by decide)

/-- C7 — Import atomicity on parse failure (http_api.py:178-218): when the
parser fails with any of the three recognized error kinds, the persistence
call is never reached — the handler result records no store write and does
not depend on the storage transform — and the handler invokes the parser
at most once, so no retry occurs within the attempt. -/
theorem C7_import_atomic_on_failure (parser : Str → Except Str Device)
    (persist : Device → Except Unit JVal) (fields : List (Str × JVal))
    (s code : Str)
    (hs : jget fields "yaml".data = some (.str s))
    (hnb : isBlank s = false)
    (hp : parser s = .error code)
    (hcode : code ∈ importKnownCodes) :
    (importSnippetPost parser persist (.ok fields)).2 = false ∧
    ∀ persist₂ : Device → Except Unit JVal,
      importSnippetPost parser persist (.ok fields)
        = importSnippetPost parser persist₂ (.ok fields) := by
  constructor
  · rw [importSnippetPost, hs]
    simp only [hnb, Bool.false_eq_true, if_false, hp, if_pos hcode]
  · intro persist₂
    rw [importSnippetPost, importSnippetPost, hs]
    simp only [hnb, Bool.false_eq_true, if_false, hp, if_pos hcode]

theorem C7_import_atomic_witness :
    (importSnippetPost (fun _ => .error "invalid_yaml".data) (fun _ => .error ())
        (.ok [("yaml".data, .str "x".data)])).2 = false :=
  (C7_import_atomic_on_failure (fun _ => .error "invalid_yaml".data) (fun _ => .error ())
    [("yaml".data, .str "x".data)] "x".data "invalid_yaml".data
    rfl (by decide) rfl (by decide)).1

/-- C8 — Export response shape (http_api.py:111-138): on success the body
is exactly the generator's output with content type `text/yaml` and HTTP
200; on load failure or generator failure the status is 500, the content
type is still `text/yaml`, and the body is a commented-text error line
beginning with `"# "` — no raw exception reaches the client. -/
theorem C8_export_response_shape (load : Except Unit Device)
    (gen : Device → Except Unit Str) :
    (∀ d s, load = .ok d → gen d = .ok s →
      snippetGet load gen = ⟨.text s, 200, "text/yaml".data⟩) ∧
    ((load = .error () ∨ ∃ d, load = .ok d ∧ gen d = .error ()) →
      (snippetGet load gen).status = 500 ∧
      (snippetGet load gen).contentType = "text/yaml".data ∧
      ∃ t, (snippetGet load gen).body = .text t ∧ t.take 2 = "# ".data) := by
  constructor
  · intro d s hload hgen
    rw [hload, snippetGet, hgen]
    rfl
  · rintro (hload | ⟨d, hload, hgen⟩)
    · rw [hload, snippetGet]
      exact ⟨rfl, rfl, _, rfl, by decide⟩
    · rw [hload, snippetGet, hgen]
      exact ⟨rfl, rfl, _, rfl, by decide⟩

theorem C8_export_response_witness :
    snippetGet (.ok exDevice) (fun d => .ok (generate_snippet d))
        = ⟨.text (generate_snippet exDevice), 200, "text/yaml".data⟩ ∧
    (snippetGet (.error ()) (fun d => .ok (generate_snippet d))).status = 500 :=
  ⟨(C8_export_response_shape (.ok exDevice) (fun d => .ok (generate_snippet d))).1
      exDevice (generate_snippet exDevice) rfl rfl,
   ((C8_export_response_shape (.error ()) (fun d => .ok (generate_snippet d))).2
      (Or.inl rfl)).1⟩

/-! ## Entities endpoint — `ReTerminalEntitiesView.get` (http_api.py:245-300) -/

/-- A Home Assistant entity state as seen by the endpoint: its id and its
friendly name (`state.name`; the empty string models a falsy name). -/
structure EState where
  entity_id : Str
  fname : Str
deriving DecidableEq

/-- An entry of the response payload (http_api.py:288-294). -/
structure Entry where
  entity_id : Str
  name : Str
  domain : Str
deriving DecidableEq

def toLowerS (s : Str) : Str := s.map Char.toLower

/-- Python `str.strip()` with the default whitespace set. -/
def stripS (s : Str) : Str :=
  ((s.dropWhile Char.isWhitespace).reverse.dropWhile Char.isWhitespace).reverse

/-- `entity_id.split(".", 1)[0] if "." in entity_id else ""` (http_api.py:277). -/
def domainOf (eid : Str) : Str :=
  if '.' ∈ eid then eid.takeWhile fun c => decide (c ≠ '.') else []

/-- `{d.strip().lower() for d in raw_domains.split(",") if d.strip()}` with the
falsy-to-`None` normalizations of http_api.py:258-267. -/
def parseDomainsFilter (raw : Option Str) : Option (List Str) :=
  match raw with
  | none => none
  | some r =>
    if r = [] then none
    else
      match (splitSep ',' r).filterMap
          (fun d => if stripS d = [] then none else some (toLowerS (stripS d))) with
      | [] => none
      | ds => some ds

/-- `params.get("search", "").strip().lower()` (http_api.py:270-271). -/
def parseSearch (raw : Option Str) : Str := toLowerS (stripS (raw.getD []))

/-- `state.name or entity_id` (http_api.py:281). -/
def effName (s : EState) : Str := if s.fname = [] then s.entity_id else s.fname

def entryOf (s : EState) : Entry := ⟨s.entity_id, effName s, domainOf s.entity_id⟩

/-- Boolean prefix test on character lists. -/
def isPrefixB : Str → Str → Bool
  | [], _ => true
  | _ :: _, [] => false
  | a :: as, b :: bs => decide (a = b) && isPrefixB as bs

/-- Python's `needle in hay` substring test. -/
def hasSubstr (needle : Str) : Str → Bool
  | [] => decide (needle = [])
  | c :: t => isPrefixB needle (c :: t) || hasSubstr needle t

/-- The domain filter of the loop body (http_api.py:278). -/
def domainPass (df : Option (List Str)) (s : EState) : Bool :=
  match df with
  | none => true
  | some ds => decide (domainOf s.entity_id ∈ ds)

/-- The filter conditions of the loop body (http_api.py:278 and 283-286). -/
def passFilters (df : Option (List Str)) (search : Str) (s : EState) : Bool :=
  domainPass df s &&
  (if search = [] then true
   else hasSubstr search (toLowerS (s.entity_id ++ ' ' :: effName s)))

/-- The `for state in ...` loop with its append-then-break-at-1000 shape
(http_api.py:275-298). -/
def entitiesLoop (df : Option (List Str)) (search : Str) :
    List EState → List Entry → List Entry
  | [], acc => acc
  | s :: rest, acc =>
    if passFilters df search s then
      if 1000 ≤ (acc ++ [entryOf s]).length then acc ++ [entryOf s]
      else entitiesLoop df search rest (acc ++ [entryOf s])
    else entitiesLoop df search rest acc

/-- `ReTerminalEntitiesView.get`: the full filtered listing. -/
def entitiesGet (rawDomains rawSearch : Option Str) (states : List EState) : List Entry :=
  entitiesLoop (parseDomainsFilter rawDomains) (parseSearch rawSearch) states []

/-- The property each returned entry must satisfy. -/
def EntryOK (df : Option (List Str)) (search : Str) (e : Entry) : Prop :=
  (∀ ds, df = some ds → e.domain ∈ ds) ∧
  (search ≠ [] → hasSubstr search (toLowerS (e.entity_id ++ ' ' :: e.name)) = true)

theorem passFilters_entryOK (df : Option (List Str)) (search : Str) (s : EState)
    (h : passFilters df search s = true) : EntryOK df search (entryOf s) := by
  rw [passFilters, Bool.and_eq_true] at h
  constructor
  · intro ds hds
    have h1 := h.1
    rw [hds] at h1
    simp only [domainPass] at h1
    exact of_decide_eq_true h1
  · intro hne
    have h2 := h.2
    rw [if_neg hne] at h2
    exact h2

theorem entitiesLoop_invariant (df : Option (List Str)) (search : Str) :
    ∀ (states : List EState) (acc : List Entry),
      acc.length < 1000 → (∀ e ∈ acc, EntryOK df search e) →
      (entitiesLoop df search states acc).length ≤ 1000 ∧
      ∀ e ∈ entitiesLoop df search states acc, EntryOK df search e := by
  intro states
  induction states with
  | nil => intro acc hlen hok; exact ⟨Nat.le_of_lt hlen, hok⟩
  | cons s rest ih =>
    intro acc hlen hok
    rw [entitiesLoop]
    by_cases hp : passFilters df search s = true
    · rw [if_pos hp]
      have hok2 : ∀ e ∈ acc ++ [entryOf s], EntryOK df search e := by
        intro e he
        rcases List.mem_append.mp he with he | he
        · exact hok e he
        · rw [List.mem_singleton.mp he]
          exact passFilters_entryOK df search s hp
      by_cases hcap : 1000 ≤ (acc ++ [entryOf s]).length
      · rw [if_pos hcap]
        refine ⟨?_, hok2⟩
        rw [List.length_append, List.length_singleton]
        omega
      · rw [if_neg hcap]
        exact ih _ (by omega) hok2
    · rw [if_neg hp]
      exact ih acc hlen hok

/-- C9 — Entities listing bound and filter soundness
(http_api.py:245-300): the response holds at most 1000 entries, every
entry's domain belongs to the domains filter whenever one is given, and
whenever the normalized search string is non-empty it occurs inside the
entry's lowercased `"entity_id name"` haystack. -/
theorem C9_entities_bound_and_filters (rawDomains rawSearch : Option Str)
    (states : List EState) :
    (entitiesGet rawDomains rawSearch states).length ≤ 1000 ∧
    ∀ e ∈ entitiesGet rawDomains rawSearch states,
      (∀ ds, parseDomainsFilter rawDomains = some ds → e.domain ∈ ds) ∧
      (parseSearch rawSearch ≠ [] →
        hasSubstr (parseSearch rawSearch)
          (toLowerS (e.entity_id ++ ' ' :: e.name)) = true) :=
  entitiesLoop_invariant (parseDomainsFilter rawDomains) (parseSearch rawSearch)
    states [] (by decide) (by intro e he; exact absurd he (List.not_mem_nil e))

def exStates : List EState :=
  [⟨"sensor.temp".data, "Temperature".data⟩, ⟨"light.kitchen".data, []⟩]

theorem C9_entities_witness :
    (entitiesGet (some "sensor".data) (some "Temp".data) exStates).length ≤ 1000 ∧
    (⟨"sensor.temp".data, "Temperature".data, "sensor".data⟩ : Entry).domain
      ∈ ["sensor".data] :=
  ⟨(C9_entities_bound_and_filters (some "sensor".data) (some "Temp".data) exStates).1,
   ((C9_entities_bound_and_filters (some "sensor".data) (some "Temp".data) exStates).2
      ⟨"sensor.temp".data, "Temperature".data, "sensor".data⟩ (by decide)).1
      ["sensor".data] (by decide)⟩

/-! ## Simulator process registry — `SimulatorStopView.post`
(esphome_designer/api/simulator.py:250-303, registry at line 28) -/

/-- One entry of `_simulator_processes`: the spawned process handle, the
temporary build directory, and the YAML path (simulator.py:226-230). -/
structure SimInfo where
  pid : Nat
  temp_dir : Str
  yaml_path : Str
deriving DecidableEq

/-- The module-level `_simulator_processes` dict, keyed by process id. -/
abbrev Registry := List (Str × SimInfo)

def regLookup (reg : Registry) (k : Str) : Option SimInfo :=
  match reg.find? fun kv => decide (kv.1 = k) with
  | some kv => some kv.2
  | none => none

/-- `del _simulator_processes[process_id]` (simulator.py:286). -/
def regErase (reg : Registry) (k : Str) : Registry :=
  reg.filter fun kv => decide (kv.1 ≠ k)

def processNotFoundResponse : Response :=
  jsonResponse (.obj [("error".data, .str "Process not found".data)]) 404

def stopSuccessResponse : Response :=
  jsonResponse (.obj [("success".data, .boolean true)]) 200

/-- `SimulatorStopView.post` (simulator.py:259-295): Python's
`if process_id and process_id in _simulator_processes` — a falsy (empty or
absent) id or an unknown id yields 404 and leaves the registry unchanged;
otherwise the entry is terminated, cleaned up, deleted and success is
returned. -/
def simulatorStop (reg : Registry) (pid? : Option Str) : Response × Registry :=
  match pid? with
  | some p =>
    if p ≠ [] ∧ regLookup reg p ≠ none then (stopSuccessResponse, regErase reg p)
    else (processNotFoundResponse, reg)
  | none => (processNotFoundResponse, reg)

theorem regLookup_erase_self (reg : Registry) (p : Str) :
    regLookup (regErase reg p) p = none := by
  induction reg with
  | nil => rfl
  | cons kv rest ih =>
    rw [regErase, List.filter_cons]
    by_cases hk : kv.1 = p
    · rw [if_neg (by simp [hk])]
      exact ih
    · rw [if_pos (by simp [hk]), regLookup,
        List.find?_cons_of_neg _ (by simp [hk])]
      exact ih

theorem regLookup_erase_other (reg : Registry) (p k : Str) (hk : k ≠ p) :
    regLookup (regErase reg p) k = regLookup reg k := by
  induction reg with
  | nil => rfl
  | cons kv rest ih =>
    rw [regErase, List.filter_cons]
    by_cases hkp : kv.1 = p
    · rw [if_neg (by simp [hkp])]
      have hck : ¬ kv.1 = k := fun h => hk ((h ▸ hkp :).symm ▸ rfl)
      have hcons : regLookup (kv :: rest) k = regLookup rest k := by
        rw [regLookup, List.find?_cons_of_neg _ (by simp [hck])]
        rfl
      rw [hcons]
      exact ih
    · rw [if_pos (by simp [hkp])]
      by_cases hkk : kv.1 = k
      · rw [regLookup, List.find?_cons_of_pos _ (by simp [hkk]),
          regLookup, List.find?_cons_of_pos _ (by simp [hkk])]
      · rw [regLookup, List.find?_cons_of_neg _ (by simp [hkk]),
          regLookup, List.find?_cons_of_neg _ (by simp [hkk])]
        exact ih

/-- C10 — Simulator stop on unknown id (simulator.py:259-295): a stop
request whose process id is absent or not a registered key yields HTTP 404
with body `{"error": "Process not found"}` and an unchanged registry; a
stop request for a registered (necessarily non-empty, uuid-derived) key
deletes exactly that entry — the key resolves to nothing afterwards, every
other key is untouched — and yields `{"success": true}`. -/
theorem C10_simulator_stop (reg : Registry) (pid? : Option Str) :
    ((∀ p, pid? = some p → regLookup reg p = none) →
      simulatorStop reg pid? = (processNotFoundResponse, reg)) ∧
    (∀ p, pid? = some p → regLookup reg p ≠ none → p ≠ [] →
      simulatorStop reg pid? = (stopSuccessResponse, regErase reg p) ∧
      regLookup (simulatorStop reg pid?).2 p = none ∧
      ∀ k, k ≠ p → regLookup (simulatorStop reg pid?).2 k = regLookup reg k) := by
  constructor
  · intro hmiss
    cases pid? with
    | none => rfl
    | some p =>
      rw [simulatorStop, if_neg fun hc => hc.2 (hmiss p rfl)]
  · intro p hp hreg hne
    rw [hp, simulatorStop, if_pos ⟨hne, hreg⟩]
    exact ⟨rfl, regLookup_erase_self reg p,
      fun k hk => regLookup_erase_other reg p k hk⟩

def exRegistry : Registry := [("ab12cd34".data, ⟨4242, "/tmp/esphome_sim_x".data, "/tmp/esphome_sim_x/simulator.yaml".data⟩)]

theorem C10_simulator_stop_witness :
    simulatorStop exRegistry (some "zz99".data) = (processNotFoundResponse, exRegistry) ∧
    simulatorStop exRegistry (some "ab12cd34".data)
      = (stopSuccessResponse, regErase exRegistry "ab12cd34".data) :=
  ⟨(C10_simulator_stop exRegistry (some "zz99".data)).1
      (fun p hp => by cases hp; rfl),
   ((C10_simulator_stop exRegistry (some "ab12cd34".data)).2 "ab12cd34".data rfl
      (by decide) (by decide)).1⟩

end ESPHomeDesigner
